import Mathlib

set_option maxHeartbeats 1000000

/-!
Shallow embedding of the ArXiv paper-dialogue plugin
(`crazy_functions/Arxiv_论文对话.py`): identifier normalization
(`_normalize_arxiv_id`), checkpointed ingestion (`process_paper`,
`_process_fragments`, `_process_single_fragment`), completion waiting
(`wait_for_paper`), and the orchestrator entry guard and query branch of
`Arxiv论文对话`.

Python strings are modelled as lists of characters (`PyStr`); the Python
operations `str.split`, `str.strip`, `str.lower`, `in` (substring test)
and `str.startswith` are given executable counterparts matching Python
semantics on the non-degenerate inputs the plugin uses (all separators
used by the source are non-empty, so Python's `ValueError` on an empty
separator never arises).
-/

abbrev PyStr := List Char

def toPy (s : String) : PyStr := s.toList

/-- Python `str.lower()`. The source only lowers ASCII text before testing
for the substring "arxiv.org/", where `Char.toLower` agrees with Python. -/
def pyLower (s : PyStr) : PyStr := s.map Char.toLower

/-- The six ASCII whitespace characters stripped by Python `str.strip()`. -/
def isPySpace (c : Char) : Bool :=
  c == ' ' || c == '\t' || c == '\n' || c == '\r' || c == '\x0b' || c == '\x0c'

/-- Python `str.strip()`: remove leading and trailing whitespace. -/
def pyStrip (s : PyStr) : PyStr :=
  ((s.dropWhile isPySpace).reverse.dropWhile isPySpace).reverse

/-- Python `sub in s` for strings: `sub` occurs contiguously in `s`. -/
def hasSubstr (sub : PyStr) : PyStr → Bool
  | [] => List.isPrefixOf sub []
  | c :: rest => List.isPrefixOf sub (c :: rest) || hasSubstr sub rest

/-- Fuelled worker for Python `str.split(sep)` with a non-empty separator:
scan left to right, cutting at each non-overlapping occurrence of `sep`.
With `fuel ≥ s.length` the fuel never runs out (each cut consumes at
least one character). -/
def pySplitF (sep : PyStr) : Nat → PyStr → List PyStr
  | 0, s => [s]
  | _ + 1, [] => [[]]
  | n + 1, c :: rest =>
    if List.isPrefixOf sep (c :: rest) then
      [] :: pySplitF sep n (List.drop sep.length (c :: rest))
    else
      match pySplitF sep n rest with
      | [] => [[c]]
      | p :: ps => (c :: p) :: ps

/-- Python `s.split(sep)` for non-empty `sep`. -/
def pySplit (sep s : PyStr) : List PyStr := pySplitF sep s.length s

/-- Python `s.split(sep)[0]`: the segment before the first occurrence of
`sep` (the whole string when `sep` does not occur). -/
def splitHead (sep s : PyStr) : PyStr := (pySplit sep s).headD s

/-- Python `s.split(sep)[-1]`: the segment after the last occurrence of
`sep` (the whole string when `sep` does not occur). -/
def splitLast (sep s : PyStr) : PyStr := (pySplit sep s).getLastD s

/-- Embedding of `ArxivRagWorker._normalize_arxiv_id` (source lines
248-256): if the lowered input contains "arxiv.org/", take the part after
`/pdf/` (preferred) or `/abs/`, then in either branch cut at the first
`v` and strip whitespace. A total, deterministic function. -/
def normalize_arxiv_id (input_str : PyStr) : PyStr :=
  if hasSubstr (toPy "arxiv.org/") (pyLower input_str) then
    let arxiv_id :=
      if hasSubstr (toPy "/pdf/") input_str then splitLast (toPy "/pdf/") input_str
      else splitLast (toPy "/abs/") input_str
    pyStrip (splitHead (toPy "v") arxiv_id)
  else
    pyStrip (splitHead (toPy "v") input_str)

/-- Status values of `ProcessingTask.status` (source line 40). -/
inductive TaskStatus where
  | pending
  | processing
  | completed
  | failed
deriving DecidableEq

/-- Embedding of the `SectionFragment` fields the plugin reads (source
lines 106-147): title, abstract, arxiv id, current section, section tree,
content, bibliography. -/
structure Fragment where
  title : PyStr
  abstract : PyStr
  arxiv_id : PyStr
  current_section : PyStr
  section_tree : PyStr
  content : PyStr
  bibliography : PyStr
deriving DecidableEq

def fragment_default : Fragment := ⟨[], [], [], [], [], [], []⟩

/-- Embedding of the `ProcessingTask` dataclass (source lines 36-43). -/
structure ProcessingTask where
  arxiv_id : PyStr
  status : TaskStatus
  error : Option PyStr
  fragments : Option (List Fragment)
deriving DecidableEq

/-- The `self.processing_queue` dict and the set of `<key>.processed`
completion-marker files under `self.checkpoint_dir`. The vector-store
contents themselves belong to the external index service and are
observed only through the event trace. -/
structure WorkerState where
  markers : List PyStr
  queue : List (PyStr × ProcessingTask)
deriving DecidableEq

/-- Python dict lookup `d.get(k)` on the association-list model. -/
def queue_lookup : List (PyStr × ProcessingTask) → PyStr → Option ProcessingTask
  | [], _ => none
  | p :: rest, k => if p.1 = k then some p.2 else queue_lookup rest k

/-- Python dict assignment `d[k] = t`: overwrite in place, or append. -/
def queue_set : List (PyStr × ProcessingTask) → PyStr → ProcessingTask → List (PyStr × ProcessingTask)
  | [], k, t => [(k, t)]
  | p :: rest, k, t => if p.1 = k then (k, t) :: rest else p :: queue_set rest k t

/-- Observable external effects of one ingestion run, in the order the
driving thread performs them: the splitter call, the synchronous
overview commit, each fragment submission to the worker pool, each
fragment add attempt with its outcome as observed when the corresponding
future is joined, the debug snapshot write, and the completion-marker
write. -/
inductive Event where
  | splitterCall (key : PyStr)
  | overviewCommit (text : PyStr)
  | fragSubmit (i : Nat)
  | fragCommit (i : Nat) (ok : Bool)
  | fragJoin (i : Nat)
  | snapshotWrite
  | markerWrite (key : PyStr)
deriving DecidableEq

/-- Outcomes of the external collaborators for one run: the splitter
(`ArxivSplitter.process`), the index writer
(`add_text_to_vector_store`) for the overview and for each fragment,
and the snapshot writer (`save_fragments_to_file`). `Except.error e`
models the call raising an exception whose `str` is `e`. -/
structure Env where
  splitter : PyStr → Except PyStr (List Fragment)
  overview_add : PyStr → Except PyStr Unit
  fragment_add : Nat → PyStr → Except PyStr Unit
  snapshot_save : Except PyStr Unit

def exceptOk : Except PyStr Unit → Bool
  | .ok _ => true
  | .error _ => false

/-- The submission events for `n` fragments, in pool-submission order
(source lines 157-160). -/
def submits_of (n : Nat) : List Event := (List.range n).map Event.fragSubmit

/-- The add-attempt and join events for `n` fragments: the loop over
`futures` at source lines 163-167 joins them in submission order, and
each fragment's add outcome (`bf i`) is observed at its join. -/
def joins_of (n : Nat) (bf : Nat → Bool) : List Event :=
  (List.range n).flatMap (fun i => [Event.fragCommit i (bf i), Event.fragJoin i])

/-- The fragment serialization built by `_process_single_fragment`
(source lines 109-118). -/
def fragment_text (f : Fragment) : PyStr :=
  toPy "Paper Title: " ++ f.title ++ toPy "\nAbstract: " ++ f.abstract ++
  toPy "\nArXiv ID: " ++ f.arxiv_id ++ toPy "\nSection: " ++ f.current_section ++
  toPy "\nSection Tree: " ++ f.section_tree ++ toPy "\nContent: " ++ f.content ++
  toPy "\nBibliography: " ++ f.bibliography ++ toPy "\nType: FRAGMENT"

/-- The overview serialization built by `_process_fragments` from the
first fragment (source lines 134-147); note no space after
"Section Tree:" in the source. -/
def overview_text (f0 : Fragment) : PyStr :=
  toPy "Paper Title: " ++ f0.title ++ toPy "\nArXiv ID: " ++ f0.arxiv_id ++
  toPy "\nAbstract: " ++ f0.abstract ++ toPy "\nSection Tree:" ++ f0.section_tree ++
  toPy "\nType: OVERVIEW"

/-- Embedding of `_process_fragments` (source lines 127-179). Returns
`(some e, trace)` when the body raises an exception `e` that propagates
to the caller, `(none, trace)` on normal return. An empty fragment list
returns normally after only logging (lines 129-131). Otherwise the
overview is added synchronously; if that raises, the exception
propagates before anything is submitted to the pool. All fragments are
then submitted to the pool (in index order), and every future is joined
with its exception caught and logged (lines 163-167), so a failing
fragment add never aborts the batch. Finally the snapshot file is
written inside the same `try`, so a snapshot failure propagates. -/
def process_fragments (env : Env) (fragments : List Fragment) : Option PyStr × List Event :=
  match fragments with
  | [] => (none, [])
  | f0 :: _ =>
    match env.overview_add (overview_text f0) with
    | .error e => (some e, [])
    | .ok _ =>
      let n := fragments.length
      let submits := submits_of n
      let joins := joins_of n
        (fun i => exceptOk (env.fragment_add i (fragment_text (fragments.getD i fragment_default))))
      let tr := Event.overviewCommit (overview_text f0) :: (submits ++ joins)
      match env.snapshot_save with
      | .error e => (some e, tr)
      | .ok _ => (none, tr ++ [Event.snapshotWrite])

/-- The `except` handler of `process_paper` (source lines 217-222): mark
the queued task failed and record the error, if the key is queued. -/
def fail_task (st : WorkerState) (k e : PyStr) : WorkerState :=
  match queue_lookup st.queue k with
  | some t => ⟨st.markers, queue_set st.queue k ⟨t.arxiv_id, TaskStatus.failed, some e, t.fragments⟩⟩
  | none => st

/-- Embedding of `process_paper` (source lines 181-222). The key is
normalized; if the `<key>.processed` marker exists the call returns
`True` at once, with no task created, no splitter call, no index write
and no state change. Otherwise a task is queued (created `pending` and
immediately set `processing`, lines 194-196), the splitter is invoked,
an empty fragment list raises
`ValueError("No fragments extracted from paper <key>")` (line 202),
fragments are processed, and only then is the marker written and the
task completed. Any exception is caught by the handler, which marks the
task failed and returns `False`. -/
def process_paper (env : Env) (st : WorkerState) (raw_id : PyStr) :
    Bool × WorkerState × List Event :=
  let arxiv_id := normalize_arxiv_id raw_id
  if arxiv_id ∈ st.markers then
    (true, st, [])
  else
    let st1 : WorkerState :=
      ⟨st.markers, queue_set st.queue arxiv_id ⟨arxiv_id, TaskStatus.processing, none, none⟩⟩
    match env.splitter arxiv_id with
    | .error e => (false, fail_task st1 arxiv_id e, [Event.splitterCall arxiv_id])
    | .ok fragments =>
      match fragments with
      | [] =>
        (false,
         fail_task st1 arxiv_id (toPy "No fragments extracted from paper " ++ arxiv_id),
         [Event.splitterCall arxiv_id])
      | f0 :: rest =>
        match process_fragments env (f0 :: rest) with
        | (some e, tr) => (false, fail_task st1 arxiv_id e, Event.splitterCall arxiv_id :: tr)
        | (none, tr) =>
          (true,
           ⟨arxiv_id :: st1.markers,
            queue_set st1.queue arxiv_id ⟨arxiv_id, TaskStatus.completed, none, some (f0 :: rest)⟩⟩,
           Event.splitterCall arxiv_id :: (tr ++ [Event.markerWrite arxiv_id]))

/-- How one call of `wait_for_paper` exits. -/
inductive WaitExit where
  | unknownKey
  | sawCompleted
  | sawFailed
  | timedOut
  | sleepNameError
deriving DecidableEq

/-- Embedding of `wait_for_paper` (source lines 223-246). The loop body
checks the queue, then the status, then the timeout, then calls
`time.sleep(0.1)`. The module never imports `time`, so the sleep call
raises `NameError`, which the enclosing `except Exception` handler
catches, logging and returning `False`. Hence the loop body runs at
most once: on a `pending`/`processing` task with a non-negative timeout
the function returns `False` immediately without ever sleeping. The
first-iteration elapsed time is modelled as `0` (the real elapsed time
between the two `datetime.now()` calls is a nonnegative instant). -/
def wait_for_paper (st : WorkerState) (arxiv_id : PyStr) (timeout : ℚ) : Bool × WaitExit :=
  match queue_lookup st.queue arxiv_id with
  | none => (false, WaitExit.unknownKey)
  | some task =>
    if task.status = TaskStatus.completed then (true, WaitExit.sawCompleted)
    else if task.status = TaskStatus.failed then (false, WaitExit.sawFailed)
    else if (0 : ℚ) > timeout then (false, WaitExit.timedOut)
    else (false, WaitExit.sleepNameError)

/-- The prefix tuple of the entry guard of `Arxiv论文对话` (source lines
322 and 331): `('https://arxiv.org', 'arxiv.org', '0', '1', '2')`. -/
def doc_ref_markers : List PyStr :=
  [toPy "https://arxiv.org", toPy "arxiv.org", toPy "0", toPy "1", toPy "2"]

/-- Python `s.startswith(tuple)`. -/
def starts_with_any (s : PyStr) (ps : List PyStr) : Bool :=
  ps.any (fun p => List.isPrefixOf p s)

/-- The document-reference heuristic of the orchestrator:
`txt.lower().strip().startswith(('https://arxiv.org', 'arxiv.org', '0', '1', '2'))`. -/
def looks_like_doc_ref (txt : PyStr) : Bool :=
  starts_with_any (pyStrip (pyLower txt)) doc_ref_markers

/-- The entry guard of `Arxiv论文对话` (source lines 321-325): with no
recorded history and text that fails the heuristic, the turn ends with
the "please supply an arXiv link or ID" prompt. -/
def prompt_for_document (history : List PyStr) (txt : PyStr) : Bool :=
  decide (history.length = 0) && !(looks_like_doc_ref txt)

/-- Modelled from the spec: the claim's reading of the heuristic, under
which any URL-prefixed or digit-leading input counts as a document
reference ("a recognized URL prefix or a digit-leading ID (any leading
decimal digit)"). Used only to compare the claim against the code. -/
def spec_looks_like_doc_ref (txt : PyStr) : Bool :=
  starts_with_any (pyStrip (pyLower txt)) [toPy "https://arxiv.org", toPy "arxiv.org"] ||
  (match (pyStrip (pyLower txt)).head? with
   | some c => c.isDigit
   | none => false)

def MAX_HISTORY_ROUND : Nat := 5
def MAX_CONTEXT_TOKEN_LIMIT : Nat := 4096
def REMEMBER_PREVIEW : Nat := 1000

/-- The default value of `plugin_kwargs.get("advanced_arg", ...)` at
source line 350. -/
def default_user_query : PyStr :=
  toPy "What is the main research question or problem addressed in this paper?"

/-- The constant that source line 351 assigns to `user_query`,
overwriting the value read from `plugin_kwargs` on line 350. -/
def overwritten_user_query : PyStr :=
  toPy "What is the main research question or problem addressed in this paper about graph attention network?"

/-- The flags returned by the external `input_clipping` utility that the
query branch inspects. -/
structure ClipFlags where
  original_input_len : Nat
  clipped_input_len : Nat
deriving DecidableEq

/-- Result of the external `input_clipping` call: clipped query, clipped
history, flags. -/
structure ClipResult where
  query_clip : PyStr
  history : List PyStr
  flags : ClipFlags

/-- The observable data of one query-branch turn: the text handed to
`input_clipping` (line 362), the text used for retrieval and shown to
the user at the model call (lines 383 and 392), the question recorded by
`remember_qa` (line 400), and the extended history (line 401). -/
structure QueryTurn where
  clip_input : PyStr
  retrieval_query : PyStr
  remembered_question : PyStr
  history_out : List PyStr
deriving DecidableEq

/-- The shortened preview substituted for an over-long query before it is
remembered (source line 373). -/
def remember_preview_of (q : PyStr) : PyStr :=
  q.take (REMEMBER_PREVIEW / 2) ++
  (toPy " ...\n...(省略" ++ toPy (Nat.repr (q.length - REMEMBER_PREVIEW)) ++ toPy "字)...\n... ") ++
  q.drop (q.length - REMEMBER_PREVIEW / 2)

/-- Embedding of the query branch of `Arxiv论文对话` (source lines
348-401). `advanced_arg` is `plugin_kwargs.get("advanced_arg")`; `clip`
is the external `input_clipping` utility; `response` is the text the
external model call returns. Line 350 reads the user instruction from
`plugin_kwargs` with a default; line 351 then unconditionally overwrites
`user_query` with a fixed constant, which is what every later step uses.
History is truncated to the last `MAX_HISTORY_ROUND * 2` entries before
clipping. -/
def query_branch (clip : PyStr → List PyStr → Nat → ClipResult)
    (advanced_arg : Option PyStr) (history : List PyStr) (response : PyStr) : QueryTurn :=
  let user_query := advanced_arg.getD default_user_query
  let user_query := overwritten_user_query
  let history1 :=
    if history.length > MAX_HISTORY_ROUND * 2 then
      history.drop (history.length - MAX_HISTORY_ROUND * 2)
    else history
  let res := clip user_query history1 MAX_CONTEXT_TOKEN_LIMIT
  let query_to_remember :=
    if res.flags.original_input_len ≠ res.flags.clipped_input_len then
      if user_query.length > REMEMBER_PREVIEW then remember_preview_of user_query
      else res.query_clip
    else res.query_clip
  ⟨user_query, res.query_clip, query_to_remember, res.history ++ [user_query, response]⟩

/-- Modelled from the spec: the query selection the claim describes, in
which the incoming `advanced_arg` (with the line-350 default when
absent) is the query actually used. Used only to compare the claim
against the code. -/
def spec_select_user_query (advanced_arg : Option PyStr) : PyStr :=
  advanced_arg.getD default_user_query

/-- An `input_clipping` oracle that clips nothing: it returns the query
and history unchanged and reports equal input lengths. -/
def clip_noop : PyStr → List PyStr → Nat → ClipResult :=
  fun q h _ => ⟨q, h, ⟨q.length, q.length⟩⟩

/-- Sample fragment for concrete runs. -/
def frag_sample : Fragment :=
  ⟨toPy "T", toPy "A", toPy "2312.12345", toPy "S", toPy "ST", toPy "C", toPy "B"⟩

/-- Environment whose splitter yields no fragments and whose index and
snapshot writers always succeed. -/
def env_empty_split : Env :=
  ⟨fun _ => Except.ok [], fun _ => Except.ok (), fun _ _ => Except.ok (), Except.ok ()⟩

/-- Environment yielding two fragments whose first fragment add raises
and whose second succeeds. -/
def env_partial_fail : Env :=
  ⟨fun _ => Except.ok [frag_sample, frag_sample],
   fun _ => Except.ok (),
   fun i _ => if i = 0 then Except.error (toPy "boom") else Except.ok (),
   Except.ok ()⟩

def st_empty : WorkerState := ⟨[], []⟩

/-- State in which the completion marker for "2312.12345" already exists
and the processing queue is empty, as after a worker restart. -/
def st_done : WorkerState := ⟨[toPy "2312.12345"], []⟩

/-- State with a task for "2312.12345" stuck in `pending`. -/
def st_pending : WorkerState :=
  ⟨[], [(toPy "2312.12345", ⟨toPy "2312.12345", TaskStatus.pending, none, none⟩)]⟩

/-- Predicates on events, for the ordering statements. -/
def isOverviewEvt : Event → Bool
  | Event.overviewCommit _ => true
  | _ => false

def isSubmitEvt : Event → Bool
  | Event.fragSubmit _ => true
  | _ => false

def isJoinEvt : Event → Bool
  | Event.fragJoin _ => true
  | _ => false

def isMarkerEvt : Event → Bool
  | Event.markerWrite _ => true
  | _ => false

/-- `ordered p q tr` holds when no `p`-event occurs strictly after any
`q`-event in `tr`; for disjoint `p` and `q` this says every `p`-event
precedes every `q`-event. -/
def ordered (p q : Event → Bool) : List Event → Bool
  | [] => true
  | e :: rest => (!(q e) || rest.all (fun x => !(p x))) && ordered p q rest

/-- If a marker write occurs in `tr`, every submitted fragment index also
has its join recorded in `tr`. -/
def marker_after_all_joins (tr : List Event) : Bool :=
  !(tr.any isMarkerEvt) ||
  tr.all (fun e =>
    match e with
    | Event.fragSubmit i => decide (Event.fragJoin i ∈ tr)
    | _ => true)

theorem isPrefixOf_single (a c : Char) (rest : PyStr) :
    List.isPrefixOf [a] (c :: rest) = (a == c) := by
  simp [List.isPrefixOf]

theorem pySplitF_ne_nil (sep : PyStr) (fuel : Nat) (s : PyStr) :
    pySplitF sep fuel s ≠ [] := by
  induction fuel generalizing s with
  | zero => simp [pySplitF]
  | succ n ih =>
    cases s with
    | nil => simp [pySplitF]
    | cons c rest =>
      simp only [pySplitF]
      split
      · simp
      · split <;> simp

theorem pySplitF_single_headD (a : Char) (fuel : Nat) (s d : PyStr)
    (h : s.length ≤ fuel) :
    (pySplitF [a] fuel s).headD d = s.takeWhile (fun c => c != a) := by
  induction fuel generalizing s d with
  | zero =>
    cases s with
    | nil => simp [pySplitF]
    | cons c rest => simp at h
  | succ n ih =>
    cases s with
    | nil => simp [pySplitF]
    | cons c rest =>
      simp only [pySplitF, isPrefixOf_single, List.takeWhile]
      by_cases hc : a = c
      · subst hc
        simp
      · have hc2 : (a == c) = false := by simp [hc]
        have hlen : rest.length ≤ n := by simpa using h
        rw [hc2]
        simp only [Bool.false_eq_true, if_false]
        have hne := pySplitF_ne_nil [a] n rest
        cases hr : pySplitF [a] n rest with
        | nil => exact absurd hr hne
        | cons p ps =>
          have hp : p = rest.takeWhile (fun x => x != a) := by
            have := ih rest d hlen
            rw [hr] at this
            simpa using this
          have hcne : (c != a) = true := by
            simp [bne]
            exact fun hh => hc hh.symm
          simp [hcne, hp]

theorem splitHead_single (a : Char) (s : PyStr) :
    splitHead [a] s = s.takeWhile (fun c => c != a) := by
  have hne := pySplitF_ne_nil [a] s.length s
  rw [splitHead, pySplit]
  exact pySplitF_single_headD a s.length s s le_rfl

/-- C8 (amended): normalization truncates at the first `v` character of
the (path-stripped) input regardless of what follows that `v`, then
trims surrounding whitespace; shown here for non-URL inputs, which the
source passes through the same `split('v')[0].strip()` rule as the tail
of a URL. An input whose `v` is not part of a trailing version suffix
still loses everything from that `v` on. -/
theorem normalize_first_v_truncation (s : PyStr)
    (h : hasSubstr (toPy "arxiv.org/") (pyLower s) = false) :
    normalize_arxiv_id s = pyStrip (s.takeWhile (fun c => c != 'v')) := by
  have hv : toPy "v" = ['v'] := rfl
  rw [normalize_arxiv_id, if_neg (by simp [h]), hv, splitHead_single]

theorem queue_lookup_set (q : List (PyStr × ProcessingTask)) (k : PyStr) (t : ProcessingTask) :
    queue_lookup (queue_set q k t) k = some t := by
  induction q with
  | nil => simp [queue_set, queue_lookup]
  | cons p rest ih =>
    by_cases h : p.1 = k
    · simp [queue_set, queue_lookup, h]
    · simp [queue_set, queue_lookup, h, ih]

theorem queue_set_set (q : List (PyStr × ProcessingTask)) (k : PyStr) (t s : ProcessingTask) :
    queue_set (queue_set q k t) k s = queue_set q k s := by
  induction q with
  | nil => simp [queue_set]
  | cons p rest ih =>
    by_cases h : p.1 = k
    · simp [queue_set, h]
    · simp [queue_set, h, ih]

theorem fail_task_markers (st : WorkerState) (k e : PyStr) :
    (fail_task st k e).markers = st.markers := by
  cases h : queue_lookup st.queue k <;> simp [fail_task, h]

theorem fail_task_after_enqueue (st : WorkerState) (k e : PyStr) (t : ProcessingTask) :
    fail_task ⟨st.markers, queue_set st.queue k t⟩ k e =
      ⟨st.markers, queue_set st.queue k ⟨t.arxiv_id, TaskStatus.failed, some e, t.fragments⟩⟩ := by
  simp [fail_task, queue_lookup_set, queue_set_set]

theorem process_paper_hit (env : Env) (st : WorkerState) (key : PyStr)
    (h : normalize_arxiv_id key ∈ st.markers) :
    process_paper env st key = (true, st, []) := by
  simp [process_paper, h]

theorem ordered_nil (p q : Event → Bool) : ordered p q [] = true := rfl

theorem ordered_of_no_p (p q : Event → Bool) (l : List Event)
    (h : ∀ e ∈ l, p e = false) : ordered p q l = true := by
  induction l with
  | nil => rfl
  | cons e rest ih =>
    simp only [ordered, Bool.and_eq_true]
    constructor
    · have hall : rest.all (fun x => !(p x)) = true := by
        simp only [List.all_eq_true]
        intro x hx
        simp [h x (List.mem_cons_of_mem _ hx)]
      rw [hall, Bool.or_true]
    · exact ih (fun x hx => h x (List.mem_cons_of_mem _ hx))

theorem ordered_of_no_q (p q : Event → Bool) (l : List Event)
    (h : ∀ e ∈ l, q e = false) : ordered p q l = true := by
  induction l with
  | nil => rfl
  | cons e rest ih =>
    simp only [ordered, Bool.and_eq_true]
    constructor
    · simp [h e (List.mem_cons_self _ _)]
    · exact ih (fun x hx => h x (List.mem_cons_of_mem _ hx))

theorem ordered_cons (p q : Event → Bool) (e : Event) (l : List Event)
    (he : q e = false) (h : ordered p q l = true) : ordered p q (e :: l) = true := by
  simp [ordered, he, h]

theorem ordered_append_of_no_q_left (p q : Event → Bool) (l1 l2 : List Event)
    (h1 : ∀ e ∈ l1, q e = false) (h2 : ordered p q l2 = true) :
    ordered p q (l1 ++ l2) = true := by
  induction l1 with
  | nil => simpa using h2
  | cons e rest ih =>
    rw [List.cons_append]
    apply ordered_cons
    · exact h1 e (List.mem_cons_self _ _)
    · exact ih (fun x hx => h1 x (List.mem_cons_of_mem _ hx))

theorem process_fragments_ok (env : Env) (f0 : Fragment) (rest : List Fragment)
    (hov : env.overview_add (overview_text f0) = Except.ok ())
    (hsnap : env.snapshot_save = Except.ok ()) :
    process_fragments env (f0 :: rest) =
      (none,
       (Event.overviewCommit (overview_text f0) ::
         (submits_of (rest.length + 1) ++
          joins_of (rest.length + 1)
            (fun i => exceptOk (env.fragment_add i (fragment_text ((f0 :: rest).getD i fragment_default)))))) ++
       [Event.snapshotWrite]) := by
  simp [process_fragments, hov, hsnap]

theorem process_fragments_snap_err (env : Env) (f0 : Fragment) (rest : List Fragment) (es : PyStr)
    (hov : env.overview_add (overview_text f0) = Except.ok ())
    (hsnap : env.snapshot_save = Except.error es) :
    process_fragments env (f0 :: rest) =
      (some es,
       Event.overviewCommit (overview_text f0) ::
         (submits_of (rest.length + 1) ++
          joins_of (rest.length + 1)
            (fun i => exceptOk (env.fragment_add i (fragment_text ((f0 :: rest).getD i fragment_default)))))) := by
  simp [process_fragments, hov, hsnap]

theorem process_fragments_ov_err (env : Env) (f0 : Fragment) (rest : List Fragment) (eo : PyStr)
    (hov : env.overview_add (overview_text f0) = Except.error eo) :
    process_fragments env (f0 :: rest) = (some eo, []) := by
  simp [process_fragments, hov]

theorem process_paper_miss_split_err (env : Env) (st : WorkerState) (key : PyStr) (e : PyStr)
    (hmem : normalize_arxiv_id key ∉ st.markers)
    (hs : env.splitter (normalize_arxiv_id key) = Except.error e) :
    process_paper env st key =
      (false,
       ⟨st.markers,
        queue_set st.queue (normalize_arxiv_id key)
          ⟨normalize_arxiv_id key, TaskStatus.failed, some e, none⟩⟩,
       [Event.splitterCall (normalize_arxiv_id key)]) := by
  have := fail_task_after_enqueue st (normalize_arxiv_id key) e
    ⟨normalize_arxiv_id key, TaskStatus.processing, none, none⟩
  simp [process_paper, hmem, hs, this]

theorem process_paper_miss_empty (env : Env) (st : WorkerState) (key : PyStr)
    (hmem : normalize_arxiv_id key ∉ st.markers)
    (hs : env.splitter (normalize_arxiv_id key) = Except.ok []) :
    process_paper env st key =
      (false,
       ⟨st.markers,
        queue_set st.queue (normalize_arxiv_id key)
          ⟨normalize_arxiv_id key, TaskStatus.failed,
           some (toPy "No fragments extracted from paper " ++ normalize_arxiv_id key), none⟩⟩,
       [Event.splitterCall (normalize_arxiv_id key)]) := by
  have := fail_task_after_enqueue st (normalize_arxiv_id key)
    (toPy "No fragments extracted from paper " ++ normalize_arxiv_id key)
    ⟨normalize_arxiv_id key, TaskStatus.processing, none, none⟩
  simp [process_paper, hmem, hs, this]

theorem process_paper_miss_frag_err (env : Env) (st : WorkerState) (key : PyStr)
    (f0 : Fragment) (rest : List Fragment) (e : PyStr) (tr : List Event)
    (hmem : normalize_arxiv_id key ∉ st.markers)
    (hs : env.splitter (normalize_arxiv_id key) = Except.ok (f0 :: rest))
    (hpf : process_fragments env (f0 :: rest) = (some e, tr)) :
    process_paper env st key =
      (false,
       ⟨st.markers,
        queue_set st.queue (normalize_arxiv_id key)
          ⟨normalize_arxiv_id key, TaskStatus.failed, some e, none⟩⟩,
       Event.splitterCall (normalize_arxiv_id key) :: tr) := by
  have := fail_task_after_enqueue st (normalize_arxiv_id key) e
    ⟨normalize_arxiv_id key, TaskStatus.processing, none, none⟩
  simp [process_paper, hmem, hs, hpf, this]

theorem process_paper_miss_frag_ok (env : Env) (st : WorkerState) (key : PyStr)
    (f0 : Fragment) (rest : List Fragment) (tr : List Event)
    (hmem : normalize_arxiv_id key ∉ st.markers)
    (hs : env.splitter (normalize_arxiv_id key) = Except.ok (f0 :: rest))
    (hpf : process_fragments env (f0 :: rest) = (none, tr)) :
    process_paper env st key =
      (true,
       ⟨normalize_arxiv_id key :: st.markers,
        queue_set st.queue (normalize_arxiv_id key)
          ⟨normalize_arxiv_id key, TaskStatus.completed, none, some (f0 :: rest)⟩⟩,
       Event.splitterCall (normalize_arxiv_id key) :: (tr ++ [Event.markerWrite (normalize_arxiv_id key)])) := by
  simp [process_paper, hmem, hs, hpf, queue_set_set]

theorem mem_submits_of (n : Nat) (e : Event) (he : e ∈ submits_of n) :
    ∃ i, i < n ∧ e = Event.fragSubmit i := by
  rcases List.mem_map.mp he with ⟨i, hi, rfl⟩
  exact ⟨i, List.mem_range.mp hi, rfl⟩

theorem mem_joins_of (n : Nat) (bf : Nat → Bool) (e : Event) (he : e ∈ joins_of n bf) :
    (∃ i, i < n ∧ e = Event.fragCommit i (bf i)) ∨ ∃ i, i < n ∧ e = Event.fragJoin i := by
  rcases List.mem_flatMap.mp he with ⟨i, hi, hm⟩
  simp only [List.mem_cons, List.mem_singleton, List.not_mem_nil, or_false] at hm
  rcases hm with h | h
  · exact Or.inl ⟨i, List.mem_range.mp hi, h⟩
  · exact Or.inr ⟨i, List.mem_range.mp hi, h⟩

theorem fragJoin_mem_joins_of (n : Nat) (bf : Nat → Bool) (i : Nat) (h : i < n) :
    Event.fragJoin i ∈ joins_of n bf := by
  apply List.mem_flatMap.mpr
  exact ⟨i, List.mem_range.mpr h, by simp⟩

theorem submits_of_no_marker (n : Nat) : ∀ e ∈ submits_of n, isMarkerEvt e = false := by
  intro e he
  rcases mem_submits_of n e he with ⟨i, _, rfl⟩
  rfl

theorem submits_of_no_overview (n : Nat) : ∀ e ∈ submits_of n, isOverviewEvt e = false := by
  intro e he
  rcases mem_submits_of n e he with ⟨i, _, rfl⟩
  rfl

theorem joins_of_no_marker (n : Nat) (bf : Nat → Bool) :
    ∀ e ∈ joins_of n bf, isMarkerEvt e = false := by
  intro e he
  rcases mem_joins_of n bf e he with ⟨i, _, rfl⟩ | ⟨i, _, rfl⟩ <;> rfl

theorem joins_of_no_overview (n : Nat) (bf : Nat → Bool) :
    ∀ e ∈ joins_of n bf, isOverviewEvt e = false := by
  intro e he
  rcases mem_joins_of n bf e he with ⟨i, _, rfl⟩ | ⟨i, _, rfl⟩ <;> rfl

theorem joins_of_no_submit (n : Nat) (bf : Nat → Bool) :
    ∀ e ∈ joins_of n bf, isSubmitEvt e = false := by
  intro e he
  rcases mem_joins_of n bf e he with ⟨i, _, rfl⟩ | ⟨i, _, rfl⟩ <;> rfl

theorem marker_after_of_no_marker (tr : List Event)
    (h : ∀ e ∈ tr, isMarkerEvt e = false) : marker_after_all_joins tr = true := by
  have hany : tr.any isMarkerEvt = false := by
    simp only [List.any_eq_false]
    intro e he
    simp [h e he]
  simp [marker_after_all_joins, hany]

/-- C6: in every ingestion run, the overview record is committed before
any fragment commit is submitted to the worker pool, the completion
marker is written strictly after every recorded fragment join, and
whenever the marker is written every submitted fragment index has been
joined — the marker is never written before all fragment commits have
been attempted. -/
theorem ingest_trace_ordering (env : Env) (st : WorkerState) (key : PyStr) :
    ordered isOverviewEvt isSubmitEvt (process_paper env st key).2.2 = true ∧
    ordered isJoinEvt isMarkerEvt (process_paper env st key).2.2 = true ∧
    marker_after_all_joins (process_paper env st key).2.2 = true := by
  by_cases hmem : normalize_arxiv_id key ∈ st.markers
  · rw [process_paper_hit env st key hmem]
    exact ⟨rfl, rfl, rfl⟩
  · rcases hs : env.splitter (normalize_arxiv_id key) with e | fragments
    · rw [process_paper_miss_split_err env st key e hmem hs]
      refine ⟨?_, ?_, ?_⟩ <;>
        simp [ordered, marker_after_all_joins, isSubmitEvt, isMarkerEvt, isOverviewEvt, isJoinEvt]
    · cases fragments with
      | nil =>
        rw [process_paper_miss_empty env st key hmem hs]
        refine ⟨?_, ?_, ?_⟩ <;>
          simp [ordered, marker_after_all_joins, isSubmitEvt, isMarkerEvt, isOverviewEvt, isJoinEvt]
      | cons f0 rest =>
        rcases hov : env.overview_add (overview_text f0) with eo | u
        · rw [process_paper_miss_frag_err env st key f0 rest eo [] hmem hs
            (process_fragments_ov_err env f0 rest eo hov)]
          refine ⟨?_, ?_, ?_⟩ <;>
            simp [ordered, marker_after_all_joins, isSubmitEvt, isMarkerEvt, isOverviewEvt, isJoinEvt]
        · cases u
          rcases hsnap : env.snapshot_save with es | u2
          · rw [process_paper_miss_frag_err env st key f0 rest es _ hmem hs
              (process_fragments_snap_err env f0 rest es hov hsnap)]
            simp only [List.cons_append, List.append_assoc, List.nil_append]
            refine ⟨?_, ?_, ?_⟩
            · apply ordered_cons _ _ _ _ rfl
              apply ordered_cons _ _ _ _ rfl
              apply ordered_of_no_p
              intro e he
              rcases List.mem_append.mp he with h | h
              · exact submits_of_no_overview _ e h
              · exact joins_of_no_overview _ _ e h
            · apply ordered_of_no_q
              intro e he
              simp only [List.mem_cons] at he
              rcases he with rfl | he
              · rfl
              rcases he with rfl | he
              · rfl
              rcases List.mem_append.mp he with h | h
              · exact submits_of_no_marker _ e h
              · exact joins_of_no_marker _ _ e h
            · apply marker_after_of_no_marker
              intro e he
              simp only [List.mem_cons] at he
              rcases he with rfl | he
              · rfl
              rcases he with rfl | he
              · rfl
              rcases List.mem_append.mp he with h | h
              · exact submits_of_no_marker _ e h
              · exact joins_of_no_marker _ _ e h
          · cases u2
            rw [process_paper_miss_frag_ok env st key f0 rest _ hmem hs
              (process_fragments_ok env f0 rest hov hsnap)]
            simp only [List.cons_append, List.append_assoc, List.nil_append]
            refine ⟨?_, ?_, ?_⟩
            · apply ordered_cons _ _ _ _ rfl
              apply ordered_cons _ _ _ _ rfl
              apply ordered_of_no_p
              intro e he
              rcases List.mem_append.mp he with h | h
              · exact submits_of_no_overview _ e h
              · rcases List.mem_append.mp h with h2 | h2
                · exact joins_of_no_overview _ _ e h2
                · simp only [List.mem_cons, List.mem_singleton, List.not_mem_nil, or_false] at h2
                  rcases h2 with rfl | rfl <;> rfl
            · apply ordered_cons _ _ _ _ rfl
              apply ordered_cons _ _ _ _ rfl
              apply ordered_append_of_no_q_left
              · exact submits_of_no_marker _
              · apply ordered_append_of_no_q_left
                · exact joins_of_no_marker _ _
                · simp [ordered, isMarkerEvt, isJoinEvt]
            · simp only [marker_after_all_joins, Bool.or_eq_true]
              refine Or.inr ?_
              simp only [List.all_eq_true]
              intro e he
              cases e with
              | fragSubmit i =>
                have hin : i < rest.length + 1 := by
                  simp [submits_of, joins_of, List.mem_cons, List.mem_append,
                    List.mem_flatMap] at he
                  exact he
                have hj := fragJoin_mem_joins_of (rest.length + 1)
                  (fun i => exceptOk (env.fragment_add i (fragment_text ((f0 :: rest).getD i fragment_default))))
                  i hin
                simp only [decide_eq_true_eq]
                refine List.mem_cons_of_mem _ (List.mem_cons_of_mem _ ?_)
                exact List.mem_append.mpr (Or.inr (List.mem_append.mpr (Or.inl hj)))
              | splitterCall k => rfl
              | overviewCommit t => rfl
              | fragCommit i b => rfl
              | fragJoin i => rfl
              | snapshotWrite => rfl
              | markerWrite k => rfl

/-- C2: when the completion marker for the normalized key already
exists, `process_paper` returns `True` immediately with no splitter
call, no index write (empty event trace) and the state unchanged; and
for every environment and state, running ingestion twice leaves exactly
the completion-marker state that running it once leaves. -/
theorem ingest_idempotent (env : Env) (st : WorkerState) (key : PyStr) :
    (normalize_arxiv_id key ∈ st.markers → process_paper env st key = (true, st, [])) ∧
    ((process_paper env (process_paper env st key).2.1 key).2.1).markers =
      ((process_paper env st key).2.1).markers := by
  constructor
  · exact process_paper_hit env st key
  · by_cases hmem : normalize_arxiv_id key ∈ st.markers
    · have h1 := process_paper_hit env st key hmem
      simp [h1]
    · rcases hs : env.splitter (normalize_arxiv_id key) with e | fragments
      · have h1 := process_paper_miss_split_err env st key e hmem hs
        have h2 := process_paper_miss_split_err env
          ⟨st.markers, queue_set st.queue (normalize_arxiv_id key)
            ⟨normalize_arxiv_id key, TaskStatus.failed, some e, none⟩⟩ key e hmem hs
        simp [h1, h2]
      · cases fragments with
        | nil =>
          have h1 := process_paper_miss_empty env st key hmem hs
          have h2 := process_paper_miss_empty env
            ⟨st.markers, queue_set st.queue (normalize_arxiv_id key)
              ⟨normalize_arxiv_id key, TaskStatus.failed,
               some (toPy "No fragments extracted from paper " ++ normalize_arxiv_id key), none⟩⟩
            key hmem hs
          simp [h1, h2]
        | cons f0 rest =>
          rcases hpf : process_fragments env (f0 :: rest) with ⟨err, tr⟩
          cases err with
          | some e =>
            have h1 := process_paper_miss_frag_err env st key f0 rest e tr hmem hs hpf
            have h2 := process_paper_miss_frag_err env
              ⟨st.markers, queue_set st.queue (normalize_arxiv_id key)
                ⟨normalize_arxiv_id key, TaskStatus.failed, some e, none⟩⟩
              key f0 rest e tr hmem hs hpf
            simp [h1, h2]
          | none =>
            have h1 := process_paper_miss_frag_ok env st key f0 rest tr hmem hs hpf
            have h2 := process_paper_hit env
              ⟨normalize_arxiv_id key :: st.markers,
               queue_set st.queue (normalize_arxiv_id key)
                 ⟨normalize_arxiv_id key, TaskStatus.completed, none, some (f0 :: rest)⟩⟩
              key (List.mem_cons_self _ _)
            simp [h1, h2]

/-- C4: when the splitter returns an empty fragment sequence for a key
with no completion marker, `process_paper` returns `False`, the tracked
task is marked `failed` with the `ValueError` message recorded, the
marker set is unchanged, and the event trace holds only the splitter
call — no index write and no marker write happen. -/
theorem empty_fragments_reject (env : Env) (st : WorkerState) (key : PyStr)
    (hmem : normalize_arxiv_id key ∉ st.markers)
    (hs : env.splitter (normalize_arxiv_id key) = Except.ok []) :
    (process_paper env st key).1 = false ∧
    queue_lookup ((process_paper env st key).2.1).queue (normalize_arxiv_id key) =
      some ⟨normalize_arxiv_id key, TaskStatus.failed,
            some (toPy "No fragments extracted from paper " ++ normalize_arxiv_id key), none⟩ ∧
    ((process_paper env st key).2.1).markers = st.markers ∧
    (process_paper env st key).2.2 = [Event.splitterCall (normalize_arxiv_id key)] := by
  have h1 := process_paper_miss_empty env st key hmem hs
  refine ⟨by rw [h1], ?_, by rw [h1], by rw [h1]⟩
  rw [h1]
  exact queue_lookup_set st.queue (normalize_arxiv_id key) _

theorem empty_fragments_reject_inst :
    normalize_arxiv_id (toPy "2312.12345") ∉ st_empty.markers ∧
    (process_paper env_empty_split st_empty (toPy "2312.12345")).1 = false ∧
    ((process_paper env_empty_split st_empty (toPy "2312.12345")).2.1).markers =
      st_empty.markers := by
  have H := empty_fragments_reject env_empty_split st_empty (toPy "2312.12345") (by decide) rfl
  exact ⟨by decide, H.1, H.2.2.1⟩

/-- C5: when some (but not all) fragment adds raise while the overview
and snapshot succeed, ingestion still completes: `process_paper` returns
`True`, the completion marker is written, and every fragment index —
failing ones included — is submitted and joined. -/
theorem partial_failure_completes (env : Env) (st : WorkerState) (key : PyStr)
    (f0 : Fragment) (rest : List Fragment)
    (hmem : normalize_arxiv_id key ∉ st.markers)
    (hs : env.splitter (normalize_arxiv_id key) = Except.ok (f0 :: rest))
    (hov : env.overview_add (overview_text f0) = Except.ok ())
    (hsnap : env.snapshot_save = Except.ok ())
    (hfail : ∃ i, i < rest.length + 1 ∧
      exceptOk (env.fragment_add i (fragment_text ((f0 :: rest).getD i fragment_default))) = false)
    (hok : ∃ j, j < rest.length + 1 ∧
      exceptOk (env.fragment_add j (fragment_text ((f0 :: rest).getD j fragment_default))) = true) :
    (process_paper env st key).1 = true ∧
    normalize_arxiv_id key ∈ ((process_paper env st key).2.1).markers ∧
    (∀ i, i < rest.length + 1 → Event.fragJoin i ∈ (process_paper env st key).2.2) := by
  have h1 := process_paper_miss_frag_ok env st key f0 rest _ hmem hs
    (process_fragments_ok env f0 rest hov hsnap)
  rw [h1]
  refine ⟨rfl, List.mem_cons_self _ _, ?_⟩
  intro i hi
  have hj := fragJoin_mem_joins_of (rest.length + 1)
    (fun i => exceptOk (env.fragment_add i (fragment_text ((f0 :: rest).getD i fragment_default)))) i hi
  exact List.mem_cons_of_mem _ (List.mem_append.mpr (Or.inl (List.mem_append.mpr (Or.inl
    (List.mem_cons_of_mem _ (List.mem_append.mpr (Or.inr hj)))))))

theorem partial_failure_completes_inst :
    (process_paper env_partial_fail st_empty (toPy "2312.12345")).1 = true ∧
    normalize_arxiv_id (toPy "2312.12345") ∈
      ((process_paper env_partial_fail st_empty (toPy "2312.12345")).2.1).markers ∧
    Event.fragJoin 0 ∈ (process_paper env_partial_fail st_empty (toPy "2312.12345")).2.2 ∧
    Event.fragJoin 1 ∈ (process_paper env_partial_fail st_empty (toPy "2312.12345")).2.2 := by
  have H := partial_failure_completes env_partial_fail st_empty (toPy "2312.12345")
    frag_sample [frag_sample] (by decide) rfl rfl rfl
    ⟨0, by decide, rfl⟩ ⟨1, by decide, rfl⟩
  exact ⟨H.1, H.2.1, H.2.2 0 (by decide), H.2.2 1 (by decide)⟩

/-- C10: when the completion marker for the key already exists,
`process_paper` returns `True` without touching the processing queue,
so a subsequent `wait_for_paper` on the same worker finds no task for
the key and returns `False`, although ingestion already succeeded. -/
theorem marker_hit_unknown_to_waiter (env : Env) (st : WorkerState) (key : PyStr) (timeout : ℚ)
    (hmem : normalize_arxiv_id key ∈ st.markers)
    (hq : queue_lookup st.queue (normalize_arxiv_id key) = none) :
    process_paper env st key = (true, st, []) ∧
    wait_for_paper ((process_paper env st key).2.1) (normalize_arxiv_id key) timeout =
      (false, WaitExit.unknownKey) := by
  have h1 := process_paper_hit env st key hmem
  refine ⟨h1, ?_⟩
  rw [h1]
  show wait_for_paper st (normalize_arxiv_id key) timeout = (false, WaitExit.unknownKey)
  rw [wait_for_paper, hq]

theorem marker_hit_unknown_to_waiter_inst :
    normalize_arxiv_id (toPy "2312.12345") ∈ st_done.markers ∧
    process_paper env_empty_split st_done (toPy "2312.12345") = (true, st_done, []) ∧
    wait_for_paper ((process_paper env_empty_split st_done (toPy "2312.12345")).2.1)
      (normalize_arxiv_id (toPy "2312.12345")) (300 : ℚ) = (false, WaitExit.unknownKey) := by
  have H := marker_hit_unknown_to_waiter env_empty_split st_done (toPy "2312.12345") 300
    (by decide) rfl
  exact ⟨by decide, H.1, H.2⟩

theorem singleton_prefix_head (a : Char) (t : PyStr) : [a] <+: t ↔ t.head? = some a := by
  cases t with
  | nil => simp
  | cons c cs =>
    rw [List.cons_prefix_cons]
    simp [eq_comm]

/-- C9 (amended): with no recorded history, the turn ends in the
"prompt user for a document" response exactly when the lowered, stripped
text neither starts with a recognized arXiv URL prefix nor has a first
character in the set {'0', '1', '2'} — the digit heuristic covers only
these three digits, not every decimal digit. -/
theorem prompt_condition_characterization (history : List PyStr) (txt : PyStr) :
    prompt_for_document history txt = true ↔
      history = [] ∧
      ¬(toPy "https://arxiv.org" <+: pyStrip (pyLower txt) ∨
        toPy "arxiv.org" <+: pyStrip (pyLower txt) ∨
        (pyStrip (pyLower txt)).head? = some '0' ∨
        (pyStrip (pyLower txt)).head? = some '1' ∨
        (pyStrip (pyLower txt)).head? = some '2') := by
  have h0 : toPy "0" = ['0'] := rfl
  have h1 : toPy "1" = ['1'] := rfl
  have h2 : toPy "2" = ['2'] := rfl
  simp [prompt_for_document, looks_like_doc_ref, starts_with_any, doc_ref_markers,
    h0, h1, h2, List.length_eq_zero, not_or, Bool.eq_false_iff, singleton_prefix_head]

/-- C9 (counterexample): the input "3312.67890" is digit-leading, so
under the claim's heuristic it looks like a document reference and must
not trigger the prompt; the code prompts anyway, because its prefix
tuple only covers '0', '1' and '2'. -/
theorem prompt_digit_heuristic_counterexample :
    prompt_for_document [] (toPy "3312.67890") = true ∧
    spec_looks_like_doc_ref (toPy "3312.67890") = true := by
  constructor <;> decide

/-- C7: normalization is a total, deterministic Lean function of the
input string (no partiality, no effects), and the versioned abs-URL form
and the bare ID of the same document normalize to the same key. -/
theorem normalize_url_version_equiv :
    normalize_arxiv_id (toPy "https://arxiv.org/abs/2312.12345v2") =
      normalize_arxiv_id (toPy "2312.12345") ∧
    normalize_arxiv_id (toPy "https://arxiv.org/abs/2312.12345v2") = toPy "2312.12345" := by
  constructor <;> decide

/-- C8 (counterexample): "average" contains a `v` that is not a trailing
version suffix (`v` is not followed by digits at the end), yet
normalization does not keep its content apart from trimming: it returns
"a", everything from the first `v` on being dropped. -/
theorem normalize_nonversion_v_counterexample :
    normalize_arxiv_id (toPy "average") = toPy "a" ∧
    normalize_arxiv_id (toPy "average") ≠ pyStrip (toPy "average") := by
  constructor <;> decide

theorem normalize_first_v_truncation_inst :
    hasSubstr (toPy "arxiv.org/") (pyLower (toPy "average")) = false ∧
    normalize_arxiv_id (toPy "average") =
      pyStrip (List.takeWhile (fun c => c != 'v') (toPy "average")) :=
  ⟨by decide, normalize_first_v_truncation (toPy "average") (by decide)⟩

/-- C3: on a task that never leaves `pending`, `wait_for_paper` with
timeout 0.2 does not poll until the timeout elapses: the module never
imports `time`, so the first `time.sleep(0.1)` raises `NameError`, the
blanket `except` swallows it, and the call returns `False` immediately
after a single status check (exit reason `sleepNameError`, not
`timedOut`). -/
theorem wait_pending_returns_immediately :
    queue_lookup st_pending.queue (toPy "2312.12345") =
      some ⟨toPy "2312.12345", TaskStatus.pending, none, none⟩ ∧
    wait_for_paper st_pending (toPy "2312.12345") (0.2 : ℚ) = (false, WaitExit.sleepNameError) := by
  have h : queue_lookup st_pending.queue (toPy "2312.12345") =
      some ⟨toPy "2312.12345", TaskStatus.pending, none, none⟩ := by decide
  refine ⟨h, ?_⟩
  rw [wait_for_paper, h]
  norm_num
  decide

/-- C1: in the query branch the text handed to the clipping utility —
and hence the retrieval query, the text shown at the model call and the
remembered question derived from it — is the constant assigned at source
line 351, for every value of `advanced_arg`; with an explicit
`advanced_arg` the used text differs from the incoming query, while the
spec-modelled selection returns the incoming query itself. -/
theorem query_uses_hardcoded_text :
    (∀ (clip : PyStr → List PyStr → Nat → ClipResult) (a : Option PyStr)
       (h : List PyStr) (r : PyStr),
       (query_branch clip a h r).clip_input = overwritten_user_query) ∧
    (query_branch clip_noop (some (toPy "Explain the second section")) []
        (toPy "resp")).retrieval_query = overwritten_user_query ∧
    overwritten_user_query ≠ toPy "Explain the second section" ∧
    spec_select_user_query (some (toPy "Explain the second section")) =
      toPy "Explain the second section" := by
  refine ⟨fun clip a h r => rfl, rfl, by decide, rfl⟩

theorem ingest_idempotent_inst :
    normalize_arxiv_id (toPy "2312.12345") ∈ st_done.markers ∧
    process_paper env_empty_split st_done (toPy "2312.12345") = (true, st_done, []) :=
  ⟨by decide, (ingest_idempotent env_empty_split st_done (toPy "2312.12345")).1 (by decide)⟩
